import Mathlib

/-!
Shallow embedding of `babcrawl.py` (Babbel batch vocabulary extractor).

Strings are modelled as `List Char`; Python's `str` methods used by the
program (`strip`, `split`, `startswith`, `endswith`, `in`, `isdigit`,
`islower`, `lower`) are modelled as explicit functions on `List Char`.
The Unicode-sensitive character predicates (`islower`, `lower`) are
modelled on the ASCII and Latin-1 ranges, which cover every character
class the program's heuristics test for (German and Portuguese letters).
-/

namespace BabCrawl

/-- A vocabulary pair: `(german, portuguese)`, as in the Python tuples
`(next_line, line)` appended by `extract_vocabulary`. -/
abbrev VocabPair := List Char × List Char

/-- Python whitespace as stripped by `str.strip()` (space, tab, CR, LF,
vertical tab, form feed). -/
def pyIsSpace (c : Char) : Bool :=
  c.isWhitespace || c = '\x0B' || c = '\x0C'

/-- Python `str.strip()`: drop whitespace from both ends. -/
def pyStrip (s : List Char) : List Char :=
  ((s.dropWhile pyIsSpace).reverse.dropWhile pyIsSpace).reverse

/-- Python `str.split('\n')`: split on every newline; the empty string
yields `[""]`. -/
def pySplitLines : List Char → List (List Char)
  | [] => [[]]
  | c :: rest =>
    if c = '\n' then [] :: pySplitLines rest
    else
      match pySplitLines rest with
      | [] => [[c]]
      | h :: t => (c :: h) :: t

/-- Python `needle in hay` (substring containment). -/
def containsSub (needle : List Char) : List Char → Bool
  | [] => needle.isEmpty
  | c :: t => needle.isPrefixOf (c :: t) || containsSub needle t

/-- Python `str.isdigit()` restricted to ASCII digits: non-empty and all
characters are digits. -/
def pyIsDigitStr (s : List Char) : Bool :=
  !s.isEmpty && s.all Char.isDigit

/-- Python `str.islower()` on a single character, modelled on the ASCII
and Latin-1 ranges (covers a-z and the accented lowercase letters the
heuristic can meet). -/
def pyIsLower (c : Char) : Bool :=
  c.isLower || c.toNat = 0xAA || c.toNat = 0xB5 || c.toNat = 0xBA ||
    (0xDF ≤ c.toNat && c.toNat ≤ 0xFF && c.toNat ≠ 0xF7)

/-- Python `str.lower()` on a single character, modelled on the ASCII and
Latin-1 ranges (A-Z and the accented uppercase letters map down by 32). -/
def pyToLower (c : Char) : Char :=
  if c.isUpper then Char.ofNat (c.toNat + 32)
  else if 0xC0 ≤ c.toNat && c.toNat ≤ 0xDE && c.toNat ≠ 0xD7 then Char.ofNat (c.toNat + 32)
  else c

/-- Python `str.lower()` on a whole string. -/
def pyStrLower (s : List Char) : List Char :=
  s.map pyToLower

/-- Python string `<` (lexicographic by code point). -/
def pyStrLt : List Char → List Char → Bool
  | [], [] => false
  | [], _ :: _ => true
  | _ :: _, [] => false
  | a :: s, b :: t => if a = b then pyStrLt s t else decide (a.toNat < b.toNat)

/-- The navigation/menu keywords skipped by exact match
(`babcrawl.py` line 31). -/
def navigationKeywords : List (List Char) :=
  [ "Home".toList, "Üben".toList, "Entdecken".toList, "Alle Vokabeln".toList,
    "Auswählen".toList, "Alle".toList, "Schwach".toList, "Mittel".toList,
    "Stark".toList ]

/-- The footer/marketing substrings that terminate the scan
(`babcrawl.py` line 37). -/
def footerMarkers : List (List Char) :=
  [ "Lernen mit Babbel".toList, "Babbel-App".toList, "Imprint".toList ]

/-- True when the line contains a footer marker: the scan breaks here. -/
def isFooterLine (line : List Char) : Bool :=
  footerMarkers.any (fun k => containsSub k line)

/-- The instructional-sentence substrings (`babcrawl.py` line 41). -/
def descriptionMarkers : List (List Char) :=
  [ "Alle Wörter".toList, "Speichere".toList, "Vokabeln pro Seite".toList ]

/-- True when the line ends with a period and contains a description
marker: skipped as descriptive prose (`babcrawl.py` line 41). -/
def isDescriptionLine (line : List Char) : Bool :=
  ".".toList.isSuffixOf line && descriptionMarkers.any (fun k => containsSub k line)

/-- German article prefixes tested on the next line (`babcrawl.py` line 60). -/
def germanArticles : List (List Char) :=
  [ "der ".toList, "die ".toList, "das ".toList, "den ".toList, "dem ".toList,
    "ein ".toList, "eine ".toList, "einen ".toList, "einem ".toList,
    "Der ".toList, "Die ".toList, "Das ".toList ]

/-- German special characters (`babcrawl.py` line 63). -/
def germanChars : List Char := [ 'ä', 'ö', 'ü', 'ß' ]

/-- Portuguese article prefixes tested on the current line
(`babcrawl.py` line 66). -/
def portugueseArticles : List (List Char) :=
  [ "a ".toList, "o ".toList, "as ".toList, "os ".toList, "um ".toList,
    "uma ".toList ]

/-- Portuguese special characters (`babcrawl.py` line 67). -/
def portugueseChars : List Char := [ 'ã', 'õ', 'ç', 'á', 'é', 'í', 'ó', 'ú' ]

/-- Case 1 of the heuristic (`babcrawl.py` lines 60-73): the current line
shows Portuguese evidence and the next line shows German evidence. -/
def strongSignal (line next_line : List Char) : Bool :=
  let has_german_article := germanArticles.any (fun a => a.isPrefixOf next_line)
  let has_german_chars := germanChars.any (fun c => next_line.contains c)
  let has_portuguese_article := portugueseArticles.any (fun a => a.isPrefixOf line)
  let has_portuguese_chars := portugueseChars.any (fun c => line.contains c)
  let starts_lowercase := pyIsLower line.headI
  (has_portuguese_article || has_portuguese_chars || starts_lowercase) &&
    (has_german_article || has_german_chars)

/-- Navigation/legal keyword substrings tested by the fallback rule
(`babcrawl.py` lines 81-84). -/
def fallbackNavKeywords : List (List Char) :=
  [ "Lernen mit".toList, "Babbel".toList, "Karriere".toList, "Imprint".toList,
    "AGB".toList ]

/-- `is_not_navigation` of `babcrawl.py` lines 81-84. -/
def isNotNavigationLine (l : List Char) : Bool :=
  !(fallbackNavKeywords.any (fun k => containsSub k l))

/-- Case 2 of the heuristic (`babcrawl.py` lines 81-87): both lines are
short and free of navigation keywords. -/
def weakSignal (line next_line : List Char) : Bool :=
  decide (line.length < 50) && decide (next_line.length < 50) &&
    isNotNavigationLine line && isNotNavigationLine next_line

/-- The `while i < len(lines)` loop of `extract_vocabulary`
(`babcrawl.py` lines 26-93), with a fuel parameter bounding the number of
iterations; `extract_vocabulary` supplies fuel `lines.length`, which is
enough because `i` strictly increases each iteration. -/
def extractGo (lines : List (List Char)) : Nat → Nat → List VocabPair
  | 0, _ => []
  | fuel + 1, i =>
    if h : i < lines.length then
      let line := pyStrip (lines.get ⟨i, h⟩)
      if line = [] ∨ line ∈ navigationKeywords then
        extractGo lines fuel (i + 1)
      else if isFooterLine line then []
      else if isDescriptionLine line then
        extractGo lines fuel (i + 1)
      else if pyIsDigitStr line then
        extractGo lines fuel (i + 1)
      else if h2 : i + 1 < lines.length then
        let next_line := pyStrip (lines.get ⟨i + 1, h2⟩)
        if next_line = [] ∨ line.length < 2 then
          extractGo lines fuel (i + 1)
        else if strongSignal line next_line then
          (next_line, line) :: extractGo lines fuel (i + 2)
        else if weakSignal line next_line then
          (next_line, line) :: extractGo lines fuel (i + 2)
        else
          extractGo lines fuel (i + 1)
      else
        extractGo lines fuel (i + 1)
    else []

/-- `extract_vocabulary` (`babcrawl.py` lines 13-95): split the stripped
text into lines and run the scan loop. -/
def extract_vocabulary (text_content : List Char) : List VocabPair :=
  let lines := pySplitLines (pyStrip text_content)
  extractGo lines lines.length 0

/-- The accumulation loop of `process_files` (`babcrawl.py` lines 108-117):
documents are modelled by their text contents, and the `all_vocabulary`
accumulator is threaded explicitly through the per-file loop. -/
def allVocabularyAux : List (List Char) → List VocabPair → List VocabPair
  | [], acc => acc
  | d :: ds, acc => allVocabularyAux ds (acc ++ extract_vocabulary d)

/-- `all_vocabulary` after the per-file loop of `process_files`. -/
def allVocabulary (docs : List (List Char)) : List VocabPair :=
  allVocabularyAux docs []

/-- Python `set(...)` on a list, modelled as first-occurrence
deduplication (the set's iteration order is unspecified in Python; the
result is re-sorted immediately, so only the underlying set matters). -/
def pyDedupAux (seen : List VocabPair) : List VocabPair → List VocabPair
  | [] => []
  | x :: xs => if x ∈ seen then pyDedupAux seen xs else x :: pyDedupAux (x :: seen) xs

/-- `set(all_vocabulary)` of `babcrawl.py` line 123. -/
def pyDedup (l : List VocabPair) : List VocabPair :=
  pyDedupAux [] l

/-- The sort key of `babcrawl.py` line 123: `key=lambda x: x[0].lower()`,
compared with Python string `<=`. -/
def vocabKeyLe (p q : VocabPair) : Bool :=
  !(pyStrLt (pyStrLower q.1) (pyStrLower p.1))

/-- Insertion into a list sorted by `vocabKeyLe`. -/
def insertSorted (x : VocabPair) : List VocabPair → List VocabPair
  | [] => [x]
  | y :: ys => if vocabKeyLe x y then x :: y :: ys else y :: insertSorted x ys

/-- `sorted(..., key=lambda x: x[0].lower())` of `babcrawl.py` line 123,
modelled as insertion sort by the lower-cased German field. -/
def sortVocab : List VocabPair → List VocabPair
  | [] => []
  | x :: xs => insertSorted x (sortVocab xs)

/-- `process_files` (`babcrawl.py` lines 98-131) on the documents' text
contents: concatenate the per-file extractions, deduplicate, and sort
case-insensitively by the German field. -/
def process_files (docs : List (List Char)) : List VocabPair :=
  sortVocab (pyDedup (allVocabulary docs))

/-- `duplicates_removed` of `babcrawl.py` line 125:
`len(all_vocabulary) - len(unique_vocabulary)`. -/
def duplicates_removed (docs : List (List Char)) : Nat :=
  (allVocabulary docs).length - (process_files docs).length

/-- The decision logic of `main` (`babcrawl.py` lines 214-235) after file
validation, on the contents of the valid files: returns the exit code and
whether `save_to_csv` is reached. With no valid files, or with an empty
extraction result, it exits with code 1 and never writes the CSV. -/
def mainRun (docs : List (List Char)) : Nat × Bool :=
  if docs = [] then (1, false)
  else if process_files docs = [] then (1, false)
  else (0, true)

/-- The skip filters of the scan (`babcrawl.py` lines 31-48): a line
survives them when it is non-empty, is not a navigation/menu keyword,
contains no footer/marketing substring, and does not consist entirely of
digits. -/
def survivesSkip (l : List Char) : Prop :=
  l ≠ [] ∧ l ∉ navigationKeywords ∧ isFooterLine l = false ∧ pyIsDigitStr l = false

instance (l : List Char) : Decidable (survivesSkip l) := by
  unfold survivesSkip
  infer_instance

/-! ### Lemmas about the aggregation step -/

theorem allVocabularyAux_eq (docs : List (List Char)) :
    ∀ acc, allVocabularyAux docs acc = acc ++ (docs.map extract_vocabulary).flatten := by
  induction docs with
  | nil => intro acc; simp [allVocabularyAux]
  | cons d ds ih => intro acc; simp [allVocabularyAux, ih, List.append_assoc]

theorem pyDedupAux_mem (p : VocabPair) (l : List VocabPair) :
    ∀ seen, p ∈ pyDedupAux seen l ↔ p ∈ l ∧ p ∉ seen := by
  induction l with
  | nil => intro seen; simp [pyDedupAux]
  | cons x xs ih =>
    intro seen
    by_cases hx : x ∈ seen
    · rw [pyDedupAux, if_pos hx, ih]
      constructor
      · rintro ⟨h1, h2⟩; exact ⟨List.mem_cons_of_mem x h1, h2⟩
      · rintro ⟨h1, h2⟩
        rcases List.mem_cons.mp h1 with rfl | h1
        · exact absurd hx h2
        · exact ⟨h1, h2⟩
    · rw [pyDedupAux, if_neg hx]
      constructor
      · intro h
        rcases List.mem_cons.mp h with rfl | h
        · exact ⟨List.mem_cons_self _ _, hx⟩
        · rcases (ih (x :: seen)).mp h with ⟨h1, h2⟩
          refine ⟨List.mem_cons_of_mem x h1, fun hc => h2 (List.mem_cons_of_mem x hc)⟩
      · rintro ⟨h1, h2⟩
        rcases List.mem_cons.mp h1 with rfl | h1
        · exact List.mem_cons_self _ _
        · by_cases hpx : p = x
          · subst hpx; exact List.mem_cons_self _ _
          · exact List.mem_cons_of_mem x ((ih (x :: seen)).mpr
              ⟨h1, fun hc => by
                rcases List.mem_cons.mp hc with h | h
                · exact hpx h
                · exact h2 h⟩)

theorem pyDedupAux_nodup (l : List VocabPair) :
    ∀ seen, (pyDedupAux seen l).Nodup := by
  induction l with
  | nil => intro seen; simp [pyDedupAux]
  | cons x xs ih =>
    intro seen
    by_cases hx : x ∈ seen
    · rw [pyDedupAux, if_pos hx]; exact ih seen
    · rw [pyDedupAux, if_neg hx]
      refine List.nodup_cons.mpr ⟨fun hc => ?_, ih (x :: seen)⟩
      exact ((pyDedupAux_mem x xs (x :: seen)).mp hc).2 (List.mem_cons_self _ _)

theorem pyDedup_mem (p : VocabPair) (l : List VocabPair) :
    p ∈ pyDedup l ↔ p ∈ l := by
  rw [pyDedup, pyDedupAux_mem]
  simp

theorem pyDedup_nodup (l : List VocabPair) : (pyDedup l).Nodup :=
  pyDedupAux_nodup l []

theorem insertSorted_perm (x : VocabPair) (l : List VocabPair) :
    (insertSorted x l).Perm (x :: l) := by
  induction l with
  | nil => simp [insertSorted]
  | cons y ys ih =>
    rw [insertSorted]
    by_cases h : vocabKeyLe x y
    · rw [if_pos h]
    · rw [if_neg h]
      exact (ih.cons y).trans (List.Perm.swap x y ys)

theorem sortVocab_perm (l : List VocabPair) : (sortVocab l).Perm l := by
  induction l with
  | nil => simp [sortVocab]
  | cons x xs ih =>
    rw [sortVocab]
    exact (insertSorted_perm x (sortVocab xs)).trans (ih.cons x)

theorem pyStrLt_antisymm (a : List Char) :
    ∀ b, pyStrLt a b = true → pyStrLt b a = true → False := by
  induction a with
  | nil =>
    intro b hab hba
    cases b with
    | nil => simp [pyStrLt] at hab
    | cons c t => simp [pyStrLt] at hba
  | cons c s ih =>
    intro b hab hba
    cases b with
    | nil => simp [pyStrLt] at hab
    | cons d t =>
      rw [pyStrLt] at hab hba
      by_cases hcd : c = d
      · subst hcd
        rw [if_pos rfl] at hab hba
        exact ih t hab hba
      · rw [if_neg hcd] at hab
        rw [if_neg (fun h => hcd h.symm)] at hba
        have h1 := of_decide_eq_true hab
        have h2 := of_decide_eq_true hba
        omega

theorem vocabKeyLe_total (p q : VocabPair) :
    vocabKeyLe p q = true ∨ vocabKeyLe q p = true := by
  rw [vocabKeyLe, vocabKeyLe]
  by_cases h1 : pyStrLt (pyStrLower q.1) (pyStrLower p.1)
  · by_cases h2 : pyStrLt (pyStrLower p.1) (pyStrLower q.1)
    · exact absurd h2 (fun h => pyStrLt_antisymm _ _ h h1)
    · right; simp [h2]
  · left; simp [h1]

theorem insertSorted_head? (x : VocabPair) (l : List VocabPair) :
    (insertSorted x l).head? = some x ∨ (insertSorted x l).head? = l.head? := by
  cases l with
  | nil => left; rfl
  | cons y ys =>
    rw [insertSorted]
    by_cases h : vocabKeyLe x y
    · rw [if_pos h]; left; rfl
    · rw [if_neg h]; right; rfl

theorem chain'_insertSorted (x : VocabPair) (l : List VocabPair)
    (hl : List.Chain' (fun a b => vocabKeyLe a b = true) l) :
    List.Chain' (fun a b => vocabKeyLe a b = true) (insertSorted x l) := by
  induction l with
  | nil => simp [insertSorted]
  | cons y ys ih =>
    rw [insertSorted]
    by_cases h : vocabKeyLe x y
    · rw [if_pos h]
      exact List.chain'_cons.mpr ⟨h, hl⟩
    · rw [if_neg h]
      have hyx : vocabKeyLe y x = true := by
        rcases vocabKeyLe_total x y with h1 | h1
        · exact absurd h1 h
        · exact h1
      rcases List.chain'_cons'.mp hl with ⟨hhead, hys⟩
      refine List.chain'_cons'.mpr ⟨?_, ih hys⟩
      intro b hb
      rcases insertSorted_head? x ys with hh | hh
      · rw [hh] at hb; cases hb; exact hyx
      · rw [hh] at hb; exact hhead b hb

theorem sortVocab_chain' (l : List VocabPair) :
    List.Chain' (fun a b => vocabKeyLe a b = true) (sortVocab l) := by
  induction l with
  | nil => simp [sortVocab]
  | cons x xs ih =>
    rw [sortVocab]
    exact chain'_insertSorted x (sortVocab xs) ih

theorem process_files_mem (docs : List (List Char)) (p : VocabPair) :
    p ∈ process_files docs ↔ p ∈ allVocabulary docs := by
  rw [process_files, (sortVocab_perm _).mem_iff, pyDedup_mem]

theorem process_files_nodup (docs : List (List Char)) :
    (process_files docs).Nodup := by
  rw [process_files]
  exact ((sortVocab_perm _).nodup_iff).mpr (pyDedup_nodup _)

/-! ### Lemmas about the scan loop -/

theorem extractGo_stop (lines : List (List Char)) (fuel i : Nat)
    (h : ¬ i < lines.length) : extractGo lines fuel i = [] := by
  cases fuel with
  | zero => rfl
  | succ f =>
    conv_lhs => rw [extractGo]
    rw [dif_neg h]

theorem extractGo_succ_eq {lines : List (List Char)} :
    ∀ fuel i, lines.length - i ≤ fuel →
      extractGo lines (fuel + 1) i = extractGo lines fuel i := by
  intro fuel
  induction fuel with
  | zero =>
    intro i hi
    have h : ¬ i < lines.length := by omega
    rw [extractGo_stop lines 1 i h, extractGo_stop lines 0 i h]
  | succ fuel ih =>
    intro i hi
    by_cases h : i < lines.length
    · conv_lhs => rw [extractGo]
      conv_rhs => rw [extractGo]
      rw [dif_pos h, dif_pos h]
      dsimp only
      rw [ih (i + 1) (by omega), ih (i + 2) (by omega)]
    · rw [extractGo_stop lines (fuel + 1 + 1) i h, extractGo_stop lines (fuel + 1) i h]

theorem extractGo_add (lines : List (List Char)) :
    ∀ k fuel i, lines.length - i ≤ fuel →
      extractGo lines (fuel + k) i = extractGo lines fuel i := by
  intro k
  induction k with
  | zero => intro fuel i _; rfl
  | succ k ih =>
    intro fuel i hi
    rw [show fuel + (k + 1) = fuel + k + 1 from rfl,
      extractGo_succ_eq (fuel + k) i (by omega), ih fuel i hi]

theorem extractGo_mem {lines : List (List Char)} :
    ∀ fuel i p, p ∈ extractGo lines fuel i →
      ∃ j, i ≤ j ∧ ∃ hj : j + 1 < lines.length,
        p.2 = pyStrip (lines.get ⟨j, Nat.lt_of_succ_lt hj⟩) ∧
        p.1 = pyStrip (lines.get ⟨j + 1, hj⟩) ∧
        survivesSkip p.2 ∧ 2 ≤ p.2.length ∧ p.1 ≠ [] := by
  intro fuel
  induction fuel with
  | zero => intro i p hp; exact absurd hp (by simp [extractGo])
  | succ fuel ih =>
    intro i p hp
    simp only [extractGo] at hp
    split at hp
    · split at hp
      · obtain ⟨j, hij, rest⟩ := ih (i + 1) p hp
        exact ⟨j, by omega, rest⟩
      · split at hp
        · exact absurd hp (List.not_mem_nil p)
        · split at hp
          · obtain ⟨j, hij, rest⟩ := ih (i + 1) p hp
            exact ⟨j, by omega, rest⟩
          · split at hp
            · obtain ⟨j, hij, rest⟩ := ih (i + 1) p hp
              exact ⟨j, by omega, rest⟩
            · split at hp
              · split at hp
                · obtain ⟨j, hij, rest⟩ := ih (i + 1) p hp
                  exact ⟨j, by omega, rest⟩
                · next h hc1 hc2 hc3 hc4 h2 hguard =>
                  split at hp
                  · rcases List.mem_cons.mp hp with heq | hmem
                    · subst heq
                      push_neg at hc1 hguard
                      rw [Bool.not_eq_true] at hc2 hc4
                      exact ⟨i, Nat.le_refl i, h2, rfl, rfl,
                        ⟨hc1.1, hc1.2, hc2, hc4⟩, hguard.2, hguard.1⟩
                    · obtain ⟨j, hij, rest⟩ := ih (i + 2) p hmem
                      exact ⟨j, by omega, rest⟩
                  · split at hp
                    · rcases List.mem_cons.mp hp with heq | hmem
                      · subst heq
                        push_neg at hc1 hguard
                        rw [Bool.not_eq_true] at hc2 hc4
                        exact ⟨i, Nat.le_refl i, h2, rfl, rfl,
                          ⟨hc1.1, hc1.2, hc2, hc4⟩, hguard.2, hguard.1⟩
                      · obtain ⟨j, hij, rest⟩ := ih (i + 2) p hmem
                        exact ⟨j, by omega, rest⟩
                    · obtain ⟨j, hij, rest⟩ := ih (i + 1) p hp
                      exact ⟨j, by omega, rest⟩
              · obtain ⟨j, hij, rest⟩ := ih (i + 1) p hp
                exact ⟨j, by omega, rest⟩
    · exact absurd hp (List.not_mem_nil p)

theorem pyStrip_eq_nil {s : List Char} (h : ∀ c ∈ s, pyIsSpace c = true) :
    pyStrip s = [] := by
  rw [pyStrip, List.dropWhile_eq_nil_iff.mpr h]
  rfl

theorem perm_count {l1 l2 : List VocabPair} (h : l1.Perm l2) (p : VocabPair) :
    l1.count p = l2.count p := by
  rw [List.count_eq_countP, List.count_eq_countP, h.countP_eq]

theorem count_eq_of_nodup {l : List VocabPair} (hn : l.Nodup) (p : VocabPair) :
    l.count p = if p ∈ l then 1 else 0 := by
  induction l with
  | nil => simp
  | cons x xs ih =>
    rcases List.nodup_cons.mp hn with ⟨hx, hxs⟩
    by_cases hpx : p = x
    · subst hpx
      rw [List.count_cons_self, ih hxs, if_neg hx, if_pos (List.mem_cons_self _ _)]
    · rw [List.count_cons_of_ne hpx, ih hxs]
      by_cases hpm : p ∈ xs
      · rw [if_pos hpm, if_pos (List.mem_cons_of_mem _ hpm)]
      · rw [if_neg hpm, if_neg (by simp [hpx, hpm])]

theorem pyDedup_toFinset (l : List VocabPair) :
    (pyDedup l).toFinset = l.toFinset := by
  ext p
  simp [List.mem_toFinset, pyDedup_mem]

theorem pyDedup_length (l : List VocabPair) :
    (pyDedup l).length = l.toFinset.card := by
  rw [← pyDedup_toFinset, List.toFinset_card_of_nodup (pyDedup_nodup l)]

theorem process_files_count (docs : List (List Char)) (p : VocabPair) :
    (process_files docs).count p = if p ∈ allVocabulary docs then 1 else 0 := by
  have h1 : (process_files docs).count p = (pyDedup (allVocabulary docs)).count p :=
    perm_count (sortVocab_perm _) p
  rw [h1, count_eq_of_nodup (pyDedup_nodup _) p]
  by_cases hm : p ∈ allVocabulary docs
  · rw [if_pos ((pyDedup_mem p _).mpr hm), if_pos hm]
  · rw [if_neg (fun hc => hm ((pyDedup_mem p _).mp hc)), if_neg hm]

theorem process_files_length (docs : List (List Char)) :
    (process_files docs).length = (allVocabulary docs).toFinset.card := by
  rw [process_files, (sortVocab_perm _).length_eq, pyDedup_length]

theorem process_files_of_nil {docs : List (List Char)}
    (h : allVocabulary docs = []) : process_files docs = [] := by
  show sortVocab (pyDedup (allVocabulary docs)) = []
  rw [h]
  rfl

/-! ### The claims -/

/-- Claim C1, counterexample: the claim states that the line used as the
German field of an emitted pair survives the skip filters; but on input
`"ola\n42"` the extractor emits the pair `("42", "ola")` whose German
field is the line `"42"`, which consists entirely of digits (the skip
filters are only ever applied to the first line of a candidate pair,
never to the second). -/
theorem claim_C1_counterexample :
    extract_vocabulary ("ola\n42".toList) = [("42".toList, "ola".toList)] ∧
    pyIsDigitStr ("42".toList) = true := by
  decide

/-- Claim C1, amended: whenever `extract_vocabulary` emits a pair, its two
constituent lines are consecutive in the input; the line used as the
Portuguese field survives every skip filter (non-empty, not a
navigation/menu keyword, no footer substring, not all digits); the line
used as the German field is non-empty, but need not survive the keyword,
digit and footer filters. -/
theorem claim_C1_pair_lines :
    ∀ (text : List Char) (p : VocabPair), p ∈ extract_vocabulary text →
      ∃ j, ∃ hj : j + 1 < (pySplitLines (pyStrip text)).length,
        p.2 = pyStrip ((pySplitLines (pyStrip text)).get ⟨j, Nat.lt_of_succ_lt hj⟩) ∧
        p.1 = pyStrip ((pySplitLines (pyStrip text)).get ⟨j + 1, hj⟩) ∧
        survivesSkip p.2 ∧ p.1 ≠ [] := by
  intro text p hp
  replace hp : p ∈ extractGo (pySplitLines (pyStrip text))
      (pySplitLines (pyStrip text)).length 0 := hp
  obtain ⟨j, _, hj, h1, h2, h3, _, h5⟩ := extractGo_mem _ 0 p hp
  exact ⟨j, hj, h1, h2, h3, h5⟩

/-- Claim C1, witness: the amended claim instantiated on `"Oi\nHallo"`
and its emitted pair `("Hallo", "Oi")`. -/
theorem claim_C1_pair_lines_witness :
    ("Hallo".toList, "Oi".toList) ∈ extract_vocabulary ("Oi\nHallo".toList) ∧
    (∃ j, ∃ hj : j + 1 < (pySplitLines (pyStrip ("Oi\nHallo".toList))).length,
      (("Hallo".toList, "Oi".toList) : VocabPair).2 =
        pyStrip ((pySplitLines (pyStrip ("Oi\nHallo".toList))).get ⟨j, Nat.lt_of_succ_lt hj⟩) ∧
      (("Hallo".toList, "Oi".toList) : VocabPair).1 =
        pyStrip ((pySplitLines (pyStrip ("Oi\nHallo".toList))).get ⟨j + 1, hj⟩) ∧
      survivesSkip (("Hallo".toList, "Oi".toList) : VocabPair).2 ∧
      (("Hallo".toList, "Oi".toList) : VocabPair).1 ≠ []) :=
  ⟨by decide, claim_C1_pair_lines ("Oi\nHallo".toList) ("Hallo".toList, "Oi".toList) (by decide)⟩

/-- Claim C2, counterexample: deduplication in `process_files` is by exact
tuple equality (`set(all_vocabulary)`), not case-insensitive on the German
field: the pairs `("Hallo", "Oi")` and `("hallo", "Oi")`, whose German
fields differ only in letter case, both survive deduplication. -/
theorem claim_C2_counterexample :
    ("Hallo".toList, "Oi".toList) ∈
      process_files ["Oi\nHallo".toList, "Oi\nhallo".toList] ∧
    ("hallo".toList, "Oi".toList) ∈
      process_files ["Oi\nHallo".toList, "Oi\nhallo".toList] ∧
    pyStrLower ("Hallo".toList) = pyStrLower ("hallo".toList) ∧
    ("Hallo".toList, "Oi".toList) ≠ (("hallo".toList, "Oi".toList) : VocabPair) := by
  decide

/-- Claim C2, amended: two pairs are considered equal for deduplication
exactly when they are equal as tuples (both fields compared
case-sensitively): the output of `process_files` contains no exact
duplicate, and a pair value appears in the output exactly when it appears
among the extracted pairs — case variants of the German field are not
merged. Only the sort key (not the dedup equality) is the lower-cased
German field. -/
theorem claim_C2_dedup_exact :
    ∀ docs : List (List Char), (process_files docs).Nodup ∧
      ∀ p : VocabPair, p ∈ process_files docs ↔ p ∈ allVocabulary docs := by
  intro docs
  exact ⟨process_files_nodup docs, fun p => process_files_mem docs p⟩

/-- Claim C3: on the boundary-scenario input the extractor skips
`"Home"` and `"42"`, accepts `("Gute Nacht", "boa noite")` (the fallback
rule fires: the strong signal fails because `"Gute Nacht"` carries no
German article or umlaut), halts at the footer-marker line
`"Lernen mit Babbel"`, and never turns `"boa tarde"`/`"Boa Tarde"` into a
pair: the result is exactly one pair. -/
theorem claim_C3_boundary_scenario :
    extract_vocabulary
        ("Home\n42\nboa noite\nGute Nacht\nLernen mit Babbel\nboa tarde\nBoa Tarde".toList) =
      [("Gute Nacht".toList, "boa noite".toList)] ∧
    weakSignal ("boa noite".toList) ("Gute Nacht".toList) = true ∧
    isFooterLine ("Lernen mit Babbel".toList) = true := by
  decide

/-- Claim C4: the aggregated output of `process_files` contains each
distinct extracted pair exactly once (count one for extracted pairs, zero
for all others), and the duplicates-removed count equals the total number
of extracted pairs minus the number of distinct extracted pairs; in
particular two documents each yielding `("Hallo", "Oi")` produce that pair
exactly once with a duplicates-removed count of 1. -/
theorem claim_C4_dedup_counts :
    (∀ (docs : List (List Char)) (p : VocabPair),
        (process_files docs).count p = if p ∈ allVocabulary docs then 1 else 0) ∧
    (∀ docs : List (List Char),
        duplicates_removed docs =
          (allVocabulary docs).length - (allVocabulary docs).toFinset.card) ∧
    process_files ["Oi\nHallo".toList, "Oi\nHallo".toList] =
      [("Hallo".toList, "Oi".toList)] ∧
    duplicates_removed ["Oi\nHallo".toList, "Oi\nHallo".toList] = 1 := by
  refine ⟨process_files_count, fun docs => ?_, by decide, by decide⟩
  rw [duplicates_removed, process_files_length]

/-- Claim C5: the output of `process_files` is non-decreasing by the
German field compared case-insensitively: for every two adjacent entries,
the lower-cased German field of the earlier one is less than or equal to
(not greater than, in Python string order) that of the later one. -/
theorem claim_C5_sorted :
    ∀ docs : List (List Char),
      List.Chain' (fun a b : VocabPair => vocabKeyLe a b = true) (process_files docs) := by
  intro docs
  exact sortVocab_chain' (pyDedup (allVocabulary docs))

/-- Claim C6: every pair emitted by `extract_vocabulary` has a non-empty
German field and a non-empty Portuguese field. -/
theorem claim_C6_nonempty_fields :
    ∀ (text : List Char) (p : VocabPair), p ∈ extract_vocabulary text →
      p.1 ≠ [] ∧ p.2 ≠ [] := by
  intro text p hp
  replace hp : p ∈ extractGo (pySplitLines (pyStrip text))
      (pySplitLines (pyStrip text)).length 0 := hp
  obtain ⟨j, _, hj, _, _, hs, _, h5⟩ := extractGo_mem _ 0 p hp
  exact ⟨h5, hs.1⟩

/-- Claim C6, witness: instantiated on `"boa noite\nGute Nacht"` and its
emitted pair. -/
theorem claim_C6_nonempty_fields_witness :
    ("Gute Nacht".toList, "boa noite".toList) ∈
      extract_vocabulary ("boa noite\nGute Nacht".toList) ∧
    ((("Gute Nacht".toList, "boa noite".toList) : VocabPair).1 ≠ [] ∧
      (("Gute Nacht".toList, "boa noite".toList) : VocabPair).2 ≠ []) :=
  ⟨by decide,
    claim_C6_nonempty_fields ("boa noite\nGute Nacht".toList)
      ("Gute Nacht".toList, "boa noite".toList) (by decide)⟩

/-- Claim C7: extraction is a pure function of each document's text, with
no state carried across documents: the accumulator threaded through the
per-file loop never influences what a document contributes, so the loop's
result is the accumulator followed by the concatenation, in document
order, of each document's independent extraction. -/
theorem claim_C7_pure_scan :
    ∀ (docs : List (List Char)) (acc : List VocabPair),
      allVocabularyAux docs acc = acc ++ (docs.map extract_vocabulary).flatten := by
  intro docs acc
  exact allVocabularyAux_eq docs acc

/-- Claim C8: with no valid input files the program exits with status 1,
and with zero pairs extracted overall it exits with status 1 without
reaching the CSV-writing step (the `Bool` component records whether
`save_to_csv` is reached). -/
theorem claim_C8_exit_status :
    ∀ docs : List (List Char),
      (docs = [] → mainRun docs = (1, false)) ∧
      (allVocabulary docs = [] → mainRun docs = (1, false)) := by
  intro docs
  constructor
  · intro h
    subst h
    rfl
  · intro h
    by_cases hd : docs = []
    · subst hd
      rfl
    · have hpf : process_files docs = [] := process_files_of_nil h
      simp [mainRun, hd, hpf]

/-- Claim C8, witness: the empty file list, and a single whitespace-only
document (which extracts zero pairs), both exit with status 1 and no CSV. -/
theorem claim_C8_exit_status_witness :
    mainRun [] = (1, false) ∧
    allVocabulary [(" ".toList)] = [] ∧
    mainRun [(" ".toList)] = (1, false) :=
  ⟨(claim_C8_exit_status []).1 rfl, by decide,
    (claim_C8_exit_status [(" ".toList)]).2 (by decide)⟩

/-- Claim C9: the empty input, and any input consisting only of
whitespace, yield the empty pair list (and no error: the embedding is a
total function). -/
theorem claim_C9_empty_input :
    extract_vocabulary [] = [] ∧
    ∀ s : List Char, (∀ c ∈ s, pyIsSpace c = true) → extract_vocabulary s = [] := by
  constructor
  · rfl
  · intro s hs
    show extractGo (pySplitLines (pyStrip s)) (pySplitLines (pyStrip s)).length 0 = []
    rw [pyStrip_eq_nil hs]
    rfl

/-- Claim C9, witness: instantiated on the two-character whitespace
input. -/
theorem claim_C9_empty_input_witness :
    (∀ c ∈ (' ' :: '\t' :: ([] : List Char)), pyIsSpace c = true) ∧
    extract_vocabulary (' ' :: '\t' :: []) = [] :=
  ⟨by decide, claim_C9_empty_input.2 (' ' :: '\t' :: []) (by decide)⟩

/-- Claim C10: the scan loop terminates within as many iterations as
there are lines, because the index `i` strictly increases each iteration:
giving the loop any extra fuel beyond the line count never changes the
result of `extract_vocabulary`. -/
theorem claim_C10_terminates :
    ∀ (text : List Char) (k : Nat),
      extractGo (pySplitLines (pyStrip text))
          ((pySplitLines (pyStrip text)).length + k) 0 =
        extract_vocabulary text := by
  intro text k
  exact extractGo_add (pySplitLines (pyStrip text)) k
    (pySplitLines (pyStrip text)).length 0 (by omega)

end BabCrawl
